import Mathlib

/-!
Shallow embedding of the Analog WakaTime extension core (activity tracker,
local database buffer, api client sync paths) and proofs about it.

Timestamps and counters are modelled as `Int` (JavaScript numbers used as
millisecond epochs and integer counters).  The calendar functions derived
from `new Date(midTime)` (ISO date string and local hour) are external to
the core logic; the embedding takes them as explicit function parameters
`dateOf hourOf : Int → Int → String / Int` applied to the two endpoints
`firstActive` and `lastActive` of a file entry, since no verified property
depends on the calendar arithmetic itself.
-/

/-- Per-file live ledger entry, from `FileActivity` in activityTracker.ts. -/
structure FileActivity where
  filePath : String
  language : String
  keystrokes : Int
  linesAdded : Int
  linesDeleted : Int
  timeSpent : Int
  firstActive : Int
  lastActive : Int
deriving Repr, DecidableEq

/-- Session snapshot, from `ActivityStats` in activityTracker.ts.  The
`activeFiles` object is modelled as an association list in iteration
order. -/
structure ActivityStats where
  sessionStart : Int
  sessionEnd : Int
  activeFiles : List (String × FileActivity)
  totalKeystrokes : Int
  totalTimeSpent : Int
deriving Repr, DecidableEq

/-- Stored buffer record, from `StoredActivity` in localDatabase.ts. -/
structure StoredActivity where
  language : String
  lines : Int
  time : Int
  date : String
  hour : Int
  synced : Bool
  timestamp : Int
deriving Repr, DecidableEq

/-- The expression `Math.floor(fileActivity.timeSpent / 1000)` from
saveActivity and groupActivityByLanguageAndHour: floor division by 1000. -/
def timeSpentSeconds (fa : FileActivity) : Int :=
  Int.fdiv fa.timeSpent 1000

/-- The expression `fileActivity.language || 'unknown'`: the only falsy
string is the empty string. -/
def languageOr (fa : FileActivity) : String :=
  if fa.language = "" then "unknown" else fa.language

/-- The record pushed by `saveActivity` for a qualifying file entry. -/
def mkStoredRecord (dateOf : Int → Int → String) (hourOf : Int → Int → Int)
    (fa : FileActivity) (now : Int) : StoredActivity :=
  { language := languageOr fa
    lines := max 0 (fa.linesAdded - fa.linesDeleted)
    time := timeSpentSeconds fa
    date := dateOf fa.firstActive fa.lastActive
    hour := hourOf fa.firstActive fa.lastActive
    synced := false
    timestamp := now }

/-- `LocalDatabase.saveActivity(stats)` from localDatabase.ts, lines 52-86.
State passing: the field `this.activities` is the first argument and the
result; `Date.now()` at entry is the argument `now`.  For each entry of
`stats.activeFiles` in order: skip when the whole-second time is zero and
both line counters are zero; then push a record exactly when
`timeSpentSeconds > 0 || netLines !== 0` with `netLines = linesAdded -
linesDeleted` (signed, before the `Math.max(0, netLines)` applied to the
stored field). -/
def saveActivity (dateOf : Int → Int → String) (hourOf : Int → Int → Int)
    (activities : List StoredActivity) (stats : ActivityStats)
    (now : Int) : List StoredActivity :=
  activities ++ stats.activeFiles.filterMap (fun p =>
    let fa := p.2
    let tss := timeSpentSeconds fa
    if tss ≤ 0 ∧ fa.linesAdded = 0 ∧ fa.linesDeleted = 0 then
      none
    else
      let netLines := fa.linesAdded - fa.linesDeleted
      if tss > 0 ∨ netLines ≠ 0 then
        some (mkStoredRecord dateOf hourOf fa now)
      else
        none)

/-- `LocalDatabase.getUnsyncedActivities()`: all records with
`synced === false`. -/
def getUnsyncedActivities (activities : List StoredActivity) :
    List StoredActivity :=
  activities.filter (fun a => !a.synced)

/-- `LocalDatabase.markAsSynced(activities)` from localDatabase.ts, lines
92-102: build the set of timestamps of the given records, then set
`synced = true` on every stored record whose timestamp is in that set. -/
def markAsSynced (activities sent : List StoredActivity) :
    List StoredActivity :=
  let syncedTimestamps := sent.map (fun a => a.timestamp)
  activities.map (fun a =>
    if a.timestamp ∈ syncedTimestamps then { a with synced := true } else a)

/-- `LocalDatabase.getTotalTime()`: sum of `time` over all records. -/
def getTotalTime (activities : List StoredActivity) : Int :=
  activities.foldl (fun total a => total + a.time) 0

/-- Thirty days in milliseconds, `30 * 24 * 60 * 60 * 1000`. -/
def THIRTY_DAYS_MS : Int := 30 * 24 * 60 * 60 * 1000

/-- `LocalDatabase.cleanupOldRecords()` from localDatabase.ts, lines
108-114: keep a record iff `!synced || timestamp > now - 30 days`. -/
def cleanupOldRecords (activities : List StoredActivity) (now : Int) :
    List StoredActivity :=
  let thirtyDaysAgo := now - THIRTY_DAYS_MS
  activities.filter (fun a => !a.synced || decide (a.timestamp > thirtyDaysAgo))

/-- `LocalDatabase.getUnsyncedCount()`. -/
def getUnsyncedCount (activities : List StoredActivity) : Int :=
  ((activities.filter (fun a => !a.synced)).length : Int)

/-! Concrete calendar environment used in closed statements: no verified
property depends on the calendar derivation, so any instantiation serves. -/

/-- Trivial date environment for concrete evaluations. -/
def dEx : Int → Int → String := fun _ _ => ""

/-- Trivial hour environment for concrete evaluations. -/
def hEx : Int → Int → Int := fun _ _ => 0

/-- A file entry whose edits only deleted lines and which accrued no time. -/
def faDeleteOnly : FileActivity :=
  { filePath := "a.ts", language := "typescript", keystrokes := 5
    linesAdded := 0, linesDeleted := 5, timeSpent := 0
    firstActive := 10, lastActive := 20 }

/-- A snapshot containing only `faDeleteOnly`. -/
def statsDeleteOnly : ActivityStats :=
  { sessionStart := 0, sessionEnd := 100
    activeFiles := [("a.ts", faDeleteOnly)]
    totalKeystrokes := 5, totalTimeSpent := 0 }

/-- A synced record whose age at the probe instant is exactly 30 days. -/
def recBoundary : StoredActivity :=
  { language := "ts", lines := 1, time := 10, date := "d", hour := 0
    synced := true, timestamp := 0 }

/-- A file entry with one whole second of accrued time and no line deltas. -/
def faTimeA : FileActivity :=
  { filePath := "a.ts", language := "typescript", keystrokes := 1
    linesAdded := 0, linesDeleted := 0, timeSpent := 1000
    firstActive := 0, lastActive := 10 }

/-- A second file entry with two whole seconds of accrued time. -/
def faTimeB : FileActivity :=
  { filePath := "b.py", language := "python", keystrokes := 2
    linesAdded := 0, linesDeleted := 0, timeSpent := 2000
    firstActive := 0, lastActive := 20 }

/-- A snapshot with two qualifying file entries. -/
def statsTwoFiles : ActivityStats :=
  { sessionStart := 0, sessionEnd := 50
    activeFiles := [("a.ts", faTimeA), ("b.py", faTimeB)]
    totalKeystrokes := 3, totalTimeSpent := 3000 }

/-- A snapshot with the single qualifying entry `faTimeA`. -/
def statsOneFile : ActivityStats :=
  { sessionStart := 0, sessionEnd := 50
    activeFiles := [("a.ts", faTimeA)]
    totalKeystrokes := 1, totalTimeSpent := 1000 }

/-- The unsynced set captured after a first ingest at clock reading 100. -/
def capturedUnsynced : List StoredActivity :=
  getUnsyncedActivities (saveActivity dEx hEx [] statsOneFile 100)

/-- The buffer after a second ingest, performed after the capture but at the
same clock reading 100. -/
def bufferAfterLateIngest : List StoredActivity :=
  saveActivity dEx hEx (saveActivity dEx hEx [] statsOneFile 100)
    statsOneFile 100

/-- A bucket aggregate, from `ActivityRequest` in apiClient.ts. -/
structure ActivityRequest where
  language : String
  lines : Int
  time : Int
  date : String
  hour : Int
deriving Repr, DecidableEq

/-- Insert-or-update on an insertion-ordered association list, the behavior
of `if (!m.has(k)) m.set(k, dflt); f(m.get(k)!)` on a JavaScript `Map`:
an existing key keeps its position and has `f` applied to its value; a new
key is appended at the end with value `f dflt`. -/
def upsert {α β : Type} [DecidableEq α] (m : List (α × β)) (k : α)
    (dflt : β) (f : β → β) : List (α × β) :=
  match m with
  | [] => [(k, f dflt)]
  | (q, v) :: rest =>
    if q = k then (q, f v) :: rest else (q, v) :: upsert rest k dflt f

/-- The nested language → date → hour map of apiClient.ts. -/
abbrev GroupedActivity :=
  List (String × List (String × List (Int × ActivityRequest)))

/-- One iteration of the loop of
`ApiClient.groupActivityByLanguageAndHour` (apiClient.ts, lines 25-71):
skip the entry when its whole-second time is not positive, otherwise add
`Math.max(0, linesAdded - linesDeleted)` and the whole seconds into the
(language, date, hour) bucket, creating the nesting levels as needed. -/
def groupStep (dateOf : Int → Int → String) (hourOf : Int → Int → Int)
    (grouped : GroupedActivity) (p : String × FileActivity) :
    GroupedActivity :=
  let fa := p.2
  let language := languageOr fa
  let tss := timeSpentSeconds fa
  if tss ≤ 0 then grouped
  else
    let netLines := max 0 (fa.linesAdded - fa.linesDeleted)
    let dateStr := dateOf fa.firstActive fa.lastActive
    let hour := hourOf fa.firstActive fa.lastActive
    upsert grouped language [] (fun dateMap =>
      upsert dateMap dateStr [] (fun hourMap =>
        upsert hourMap hour
          { language := language, lines := 0, time := 0, date := dateStr,
            hour := hour }
          (fun ar =>
            { ar with
              lines := ar.lines + netLines
              time := ar.time + tss })))

/-- `ApiClient.groupActivityByLanguageAndHour(stats)`: fold `groupStep`
over the snapshot entries in iteration order. -/
def groupActivityByLanguageAndHour (dateOf : Int → Int → String)
    (hourOf : Int → Int → Int) (stats : ActivityStats) : GroupedActivity :=
  stats.activeFiles.foldl (groupStep dateOf hourOf) []

/-- Lookup in an insertion-ordered association list, the behavior of
`Map.get` keyed on the first component. -/
def mapGet {α β : Type} [DecidableEq α] : List (α × β) → α → Option β
  | [], _ => none
  | (q, v) :: rest, k => if q = k then some v else mapGet rest k

/-- `Map.set`: replace the value at an existing key in place, append a new
key at the end. -/
def mapSet {α β : Type} [DecidableEq α] : List (α × β) → α → β → List (α × β)
  | [], k, v => [(k, v)]
  | (q, w) :: rest, k, v =>
    if q = k then (q, v) :: rest else (q, w) :: mapSet rest k v

/-- `INACTIVITY_THRESHOLD` of activityTracker.ts. -/
def INACTIVITY_THRESHOLD : Int := 120000

/-- `MAX_TIME_PER_TICK` of activityTracker.ts. -/
def MAX_TIME_PER_TICK : Int := 2000

/-- `MAX_TIME_PER_SAVE_INTERVAL` of activityTracker.ts. -/
def MAX_TIME_PER_SAVE_INTERVAL : Int := 35000

/-- The mutable fields of `ActivityTracker` (activityTracker.ts, lines
22-38) that the tick and stats paths read or write. -/
structure TrackerState where
  activeFiles : List (String × FileActivity)
  sessionStart : Int
  totalKeystrokes : Int
  currentActiveFile : Option String
  lastTickTime : Int
  isUserActive : Bool
  lastActivityTime : Int
  intervalTimeAccumulated : Int
deriving Repr, DecidableEq

/-- `ActivityTracker.tickTime()` (activityTracker.ts, lines 52-89).  The
reads of `Date.now()` and `vscode.window.state.focused` are the arguments
`now` and `focused`.  `lastTickTime` is always advanced to `now` first;
accrual is skipped when the host lacks focus, no file is focused, the idle
threshold is passed, or the focused file has no ledger entry; the elapsed
time is capped at `MAX_TIME_PER_TICK`; a tick whose addition would push the
interval counter past `MAX_TIME_PER_SAVE_INTERVAL` contributes nothing. -/
def tickTime (s : TrackerState) (focused : Bool) (now : Int) : TrackerState :=
  let timeSinceLastTick := now - s.lastTickTime
  let s1 : TrackerState := { s with lastTickTime := now }
  if !focused then { s1 with isUserActive := false }
  else
    match s1.currentActiveFile with
    | none => { s1 with isUserActive := false }
    | some fp =>
      if now - s1.lastActivityTime > INACTIVITY_THRESHOLD then
        { s1 with isUserActive := false }
      else
        match mapGet s1.activeFiles fp with
        | none => s1
        | some fa =>
          let timeToAdd := min timeSinceLastTick MAX_TIME_PER_TICK
          if s1.intervalTimeAccumulated + timeToAdd >
              MAX_TIME_PER_SAVE_INTERVAL then
            s1
          else
            { s1 with
              activeFiles := mapSet s1.activeFiles fp
                { fa with timeSpent := fa.timeSpent + timeToAdd, lastActive := now }
              intervalTimeAccumulated := s1.intervalTimeAccumulated + timeToAdd
              isUserActive := true }

/-- A sequence of ticks: each element carries the focus flag and the clock
reading observed by that tick. -/
def ticks (s : TrackerState) (l : List (Bool × Int)) : TrackerState :=
  l.foldl (fun st p => tickTime st p.1 p.2) s

/-- Accumulated active time of one resource (0 when unknown). -/
def fileTime (s : TrackerState) (fp : String) : Int :=
  match mapGet s.activeFiles fp with
  | some fa => fa.timeSpent
  | none => 0

/-- `ActivityTracker.getSessionTime()`: total accumulated time over all
ledger entries. -/
def getSessionTime (s : TrackerState) : Int :=
  s.activeFiles.foldl (fun total p => total + p.2.timeSpent) 0

/-- `ActivityTracker.getStats()` (activityTracker.ts, lines 249-267): a
snapshot of the session; `sessionEnd` is the clock reading `now` of the
call.  The per-entry copies are identity in a pure embedding, and the
state is not changed (the function returns only the snapshot). -/
def getStats (s : TrackerState) (now : Int) : ActivityStats :=
  { sessionStart := s.sessionStart
    sessionEnd := now
    activeFiles := s.activeFiles
    totalKeystrokes := s.totalKeystrokes
    totalTimeSpent := s.activeFiles.foldl (fun total p => total + p.2.timeSpent) 0 }

/-- `ActivityTracker.resetStats()` (activityTracker.ts, lines 269-285):
zero all per-file counters, keep the ledger keys, reset the session start,
the keystroke total, the interval counter and the tick clock. -/
def resetStats (s : TrackerState) (now : Int) : TrackerState :=
  { s with
    activeFiles := s.activeFiles.map (fun p =>
      (p.1, { p.2 with
              timeSpent := 0
              keystrokes := 0
              linesAdded := 0
              linesDeleted := 0
              firstActive := now
              lastActive := now }))
    sessionStart := now
    totalKeystrokes := 0
    intervalTimeAccumulated := 0
    lastTickTime := now }

/-- Sum of inter-tick gaps of a tick sequence, measured from the previous
tick clock value. -/
def gapsSum : Int → List (Bool × Int) → Int
  | _, [] => 0
  | last, (_, now) :: rest => (now - last) + gapsSum now rest

/-- The clock readings of a tick sequence are non-decreasing, starting from
the previous tick clock value: the wall-clock monotonicity assumption. -/
def ticksMono : Int → List (Bool × Int) → Prop
  | _, [] => True
  | last, (_, now) :: rest => last ≤ now ∧ ticksMono now rest

/-- A concrete tracker state: one known file, focused, counters zeroed,
clock at 0. -/
def exTracker : TrackerState :=
  { activeFiles := [("a.ts", faTimeA)]
    sessionStart := 0
    totalKeystrokes := 0
    currentActiveFile := some "a.ts"
    lastTickTime := 0
    isUserActive := false
    lastActivityTime := 0
    intervalTimeAccumulated := 0 }

/-- A concrete tick trace with non-decreasing clock readings. -/
def exTicks : List (Bool × Int) := [(true, 1000), (true, 2500)]

/-- One entry of `event.contentChanges` (activityTracker.ts, lines
189-211): the replaced range (start and end line, and its character
length) and the inserted text. -/
structure ContentChange where
  startLine : Nat
  endLine : Nat
  text : List Char
  rangeLength : Nat
deriving Repr, DecidableEq

/-- Per-change contribution of the loop body of
`ActivityTracker.trackFileChange` (activityTracker.ts, lines 189-211), as
the triple (lines deleted, lines added, keystrokes): add
`endLine − startLine` when positive, add the newline count of the inserted
text when positive, then subtract `min` of both from each when both are
positive, and count `max(text.length, rangeLength)` keystrokes. -/
def changeDelta (c : ContentChange) : Int × Int × Int :=
  let deletedFullLines : Int := (c.endLine : Int) - (c.startLine : Int)
  let d0 : Int := if deletedFullLines > 0 then deletedFullLines else 0
  let newLineCount : Int := (c.text.count '\n' : Int)
  let a0 : Int := if newLineCount > 0 then newLineCount else 0
  let replaced : Int :=
    if deletedFullLines > 0 ∧ newLineCount > 0 then
      min deletedFullLines newLineCount
    else 0
  (d0 - replaced, a0 - replaced,
    max (c.text.length : Int) (c.rangeLength : Int))

/-- The whole-event accumulation over `event.contentChanges`. -/
def processChanges (changes : List ContentChange) : Int × Int × Int :=
  changes.foldl (fun acc c =>
    let delta := changeDelta c
    (acc.1 + delta.1, acc.2.1 + delta.2.1, acc.2.2 + delta.2.2)) (0, 0, 0)

/-- The per-range arithmetic in the words of the specification: lines
deleted = `max(0, endLine − startLine)`, lines added = count of line
breaks inserted, overlap `min(added, deleted)` subtracted from each when
both are nonzero, keystroke delta = `max(inserted length, replaced range
length)`. -/
def specRangeDelta (c : ContentChange) : Int × Int × Int :=
  let deleted : Int := max 0 ((c.endLine : Int) - (c.startLine : Int))
  let added : Int := (c.text.count '\n' : Int)
  let overlap : Int :=
    if deleted ≠ 0 ∧ added ≠ 0 then min added deleted else 0
  (deleted - overlap, added - overlap,
    max (c.text.length : Int) (c.rangeLength : Int))

/-- The fields of a `fetch` response that `syncActivities` reads. -/
structure HttpResponse where
  ok : Bool
  status : Int
  body : String
deriving Repr, DecidableEq

/-- `ApiClient.syncActivities(activities)` (apiClient.ts, lines 150-178),
with the transport settled by the given `response`: missing token and
non-ok responses reject (throw); an empty batch and an ok response
resolve.  Marking records synced is the business of the caller, after a
resolution. -/
def syncActivities (apiToken : String) (batch : List StoredActivity)
    (response : HttpResponse) : Except String Unit :=
  if apiToken = "" then Except.error "API token is not set"
  else if batch.length = 0 then Except.ok ()
  else if response.ok then Except.ok ()
  else Except.error ("HTTP error! status: " ++ toString response.status)

/-- The forced-sync command (extension activation code, `forceSyncCommand`,
lines 414-453), from the point where the unsynced set is read, with the
settlement of `syncActivities` as the `outcome` argument.  Returns the
final buffer and the list of notifications shown.  The source does NOT
await the promise returned by `vscode.window.withProgress`, so the
enclosing try/catch never observes a sync failure: the success
notification is shown unconditionally once the unsynced set is nonempty,
the error notification of the catch block is unreachable from a sync
rejection, and `markAsSynced` runs only when the sync settles ok. -/
def runForceSyncAfterFlush (db : List StoredActivity)
    (outcome : Except String Unit) : List StoredActivity × List String :=
  let unsynced := getUnsyncedActivities db
  if unsynced.length = 0 then
    (db, ["✅ No data for synchronization"])
  else
    match outcome with
    | Except.ok _ =>
      (markAsSynced db unsynced,
       ["✅ Synchronized " ++ toString unsynced.length ++ " records"])
    | Except.error _ =>
      (db, ["✅ Synchronized " ++ toString unsynced.length ++ " records"])

/-- The scheduled sync cycle (extension activation code, `syncInterval`
callback, lines 477-498), which does await: on a rejection it only logs,
marking nothing; on a resolution it marks the sent set. -/
def runScheduledSync (db : List StoredActivity)
    (outcome : Except String Unit) : List StoredActivity :=
  let unsynced := getUnsyncedActivities db
  if unsynced.length = 0 then db
  else
    match outcome with
    | Except.ok _ => markAsSynced db unsynced
    | Except.error _ => db

/-- An unsynced stored record awaiting sync. -/
def recUnsynced : StoredActivity :=
  { language := "typescript", lines := 1, time := 10, date := "2025-01-01"
    hour := 3, synced := false, timestamp := 5 }

/-- Claim C3 (amended): `saveActivity` appends exactly one stored record for
every snapshot entry with whole-second time greater than zero OR
`linesAdded ≠ linesDeleted` (the signed net delta nonzero), and none for the
others.  The condition is the signed `netLines = linesAdded − linesDeleted`,
not the clamped `max(0, ·)` of the original claim: a zero-time entry whose
deletions exceed its additions still yields a record (with stored `lines`
clamped to 0). -/
theorem saveActivity_characterization :
    ∀ (dateOf : Int → Int → String) (hourOf : Int → Int → Int)
      (activities : List StoredActivity) (stats : ActivityStats) (now : Int),
    saveActivity dateOf hourOf activities stats now =
      activities ++ stats.activeFiles.filterMap (fun p =>
        if 0 < timeSpentSeconds p.2 ∨ p.2.linesAdded ≠ p.2.linesDeleted then
          some (mkStoredRecord dateOf hourOf p.2 now)
        else
          none) := by
  intro dateOf hourOf activities stats now
  unfold saveActivity
  congr 1
  apply List.filterMap_congr
  intro p _
  dsimp only
  split_ifs <;> first | rfl | (exfalso; omega)

/-- Claim C3 counterexample: the delete-only zero-time entry produces one
stored record, where the claim as stated says it produces none. -/
theorem saveActivity_keeps_delete_only_entry :
    saveActivity dEx hEx [] statsDeleteOnly 7 =
      [{ language := "typescript", lines := 0, time := 0, date := "",
         hour := 0, synced := false, timestamp := 7 }] := by
  decide

/-- Claim C7 (amended): `cleanupOldRecords` keeps records in place and
unmodified (the result is a sublist of the input), and a record survives iff
it is unsynced or its age `now − timestamp` is strictly below 30 days.
Equivalently it removes exactly the synced records whose age is at least
30 days — at least, not strictly more than, as the original claim states:
a synced record aged exactly 30 days is removed. -/
theorem cleanupOldRecords_characterization :
    ∀ (activities : List StoredActivity) (now : Int),
      (cleanupOldRecords activities now).Sublist activities ∧
      ∀ a : StoredActivity,
        a ∈ cleanupOldRecords activities now ↔
          a ∈ activities ∧
            (a.synced = false ∨ now - a.timestamp < THIRTY_DAYS_MS) := by
  intro activities now
  constructor
  · exact List.filter_sublist activities
  · intro a
    simp only [cleanupOldRecords, List.mem_filter, Bool.or_eq_true,
      Bool.not_eq_true', decide_eq_true_eq]
    constructor
    · rintro ⟨ha, hb | hb⟩
      · exact ⟨ha, Or.inl hb⟩
      · refine ⟨ha, Or.inr ?_⟩
        omega
    · rintro ⟨ha, hb | hb⟩
      · exact ⟨ha, Or.inl hb⟩
      · refine ⟨ha, Or.inr ?_⟩
        omega

/-- Claim C7 counterexample: a synced record aged exactly 30 days — an age
that does not exceed the 30-day window — is removed by the cleanup, where
the claim as stated says it is untouched. -/
theorem cleanupOldRecords_removes_exact_boundary :
    cleanupOldRecords [recBoundary] THIRTY_DAYS_MS = [] ∧
    THIRTY_DAYS_MS - recBoundary.timestamp = THIRTY_DAYS_MS := by
  decide

/-- Every record appended by `saveActivity` (the part of the result beyond
the original buffer) carries the ingest time as its creation timestamp and
starts unsynced. -/
lemma saveActivity_new_records (dateOf : Int → Int → String)
    (hourOf : Int → Int → Int) (activities : List StoredActivity)
    (stats : ActivityStats) (now : Int) :
    ∀ a ∈ (saveActivity dateOf hourOf activities stats now).drop
        activities.length,
      a.timestamp = now ∧ a.synced = false := by
  intro a ha
  rw [saveActivity, List.drop_left] at ha
  obtain ⟨p, _, hp⟩ := List.mem_filterMap.mp ha
  dsimp only at hp
  split_ifs at hp
  all_goals cases hp
  all_goals exact ⟨rfl, rfl⟩

/-- Claim C2 (amended): no buffer operation changes an existing record, and
in particular its creation timestamp: `saveActivity` leaves the original
buffer as an unchanged prefix and stamps every appended record with the one
ingest time `now`; `markAsSynced` preserves the timestamp sequence;
`cleanupOldRecords` returns a sublist of the buffer.  Pairwise distinctness
of timestamps does NOT hold in general — all records appended by a single
ingest call share that call's clock reading, and only records created by
calls at distinct clock readings are guaranteed distinct keys. -/
theorem stored_timestamps_immutable :
    (∀ (dateOf : Int → Int → String) (hourOf : Int → Int → Int)
       (activities : List StoredActivity) (stats : ActivityStats) (now : Int),
       (saveActivity dateOf hourOf activities stats now).take activities.length
           = activities ∧
       ∀ a ∈ (saveActivity dateOf hourOf activities stats now).drop
           activities.length, a.timestamp = now) ∧
    (∀ activities sent : List StoredActivity,
       (markAsSynced activities sent).map StoredActivity.timestamp =
         activities.map StoredActivity.timestamp) ∧
    (∀ (activities : List StoredActivity) (now : Int),
       (cleanupOldRecords activities now).Sublist activities) := by
  refine ⟨fun dateOf hourOf activities stats now => ⟨?_, ?_⟩, ?_, ?_⟩
  · rw [saveActivity, List.take_left]
  · intro a ha
    exact (saveActivity_new_records dateOf hourOf activities stats now a ha).1
  · intro activities sent
    simp only [markAsSynced, List.map_map, Function.comp]
    congr 1
    funext a
    simp only [Function.comp_apply]
    split_ifs <;> rfl
  · intro activities now
    exact List.filter_sublist activities

/-- Claim C2 counterexample: one ingest of a two-file snapshot produces two
stored records with the same creation timestamp, so the timestamps of the
stored records are not pairwise distinct. -/
theorem saveActivity_duplicate_timestamps :
    (saveActivity dEx hEx [] statsTwoFiles 100).map StoredActivity.timestamp
        = [100, 100] ∧
    ¬ ((saveActivity dEx hEx [] statsTwoFiles 100).map
        StoredActivity.timestamp).Nodup := by
  exact ⟨by decide, by decide⟩

/-- Claim C1 (amended): `markAsSynced` sets `synced = true` on exactly the
stored records whose creation timestamp is among the timestamps of the
given set, leaving every other record untouched (stated positionally via
`get?`); and a record ingested after the set was captured stays unsynced
PROVIDED its ingest time differs from every timestamp in the set.  The
proviso is forced: ingest stamps records with the clock reading of the
call, so a record ingested after the capture but at the same clock reading
as a captured record shares its key and is marked as well. -/
theorem markAsSynced_exact_on_timestamps :
    (∀ (activities sent : List StoredActivity) (i : Nat),
       (markAsSynced activities sent)[i]? = (activities[i]?).map
         (fun a =>
           if a.timestamp ∈ sent.map StoredActivity.timestamp then
             { a with synced := true }
           else a)) ∧
    (∀ (dateOf : Int → Int → String) (hourOf : Int → Int → Int)
       (activities : List StoredActivity) (stats : ActivityStats)
       (now : Int) (sent : List StoredActivity),
       now ∉ sent.map StoredActivity.timestamp →
       ∀ a ∈ (markAsSynced (saveActivity dateOf hourOf activities stats now)
           sent).drop activities.length,
         a.synced = false) := by
  constructor
  · intro activities sent i
    simp only [markAsSynced, List.getElem?_map]
  · intro dateOf hourOf activities stats now sent hnot a ha
    simp only [markAsSynced, saveActivity, List.map_append] at ha
    rw [List.drop_left' (by simp)] at ha
    obtain ⟨b, hb, rfl⟩ := List.mem_map.mp ha
    have hbts := saveActivity_new_records dateOf hourOf activities stats now b
      (by rw [saveActivity, List.drop_left]; exact hb)
    rw [if_neg (by rw [hbts.1]; exact hnot)]
    exact hbts.2

/-- Claim C1 counterexample: the second record was ingested after the
unsynced set was captured, yet `markAsSynced` with the captured set marks
it synced, because it shares the captured creation timestamp 100. -/
theorem markAsSynced_marks_late_record :
    capturedUnsynced.length = 1 ∧ bufferAfterLateIngest.length = 2 ∧
    (markAsSynced bufferAfterLateIngest capturedUnsynced).map
        StoredActivity.synced = [true, true] := by
  exact ⟨by decide, by decide, by decide⟩

/-- Entries with non-positive whole-second time never contribute to the
grouping fold, from any accumulator. -/
lemma groupFold_skips_subsecond (dateOf : Int → Int → String)
    (hourOf : Int → Int → Int) :
    ∀ (l : List (String × FileActivity)) (g : GroupedActivity),
      l.foldl (groupStep dateOf hourOf) g =
        (l.filter (fun p => decide (0 < timeSpentSeconds p.2))).foldl
          (groupStep dateOf hourOf) g := by
  intro l
  induction l with
  | nil => intro g; rfl
  | cons p rest ih =>
    intro g
    by_cases h : 0 < timeSpentSeconds p.2
    · rw [List.filter_cons_of_pos (by simpa using h)]
      simp only [List.foldl_cons]
      exact ih _
    · rw [List.filter_cons_of_neg (by simpa using h)]
      simp only [List.foldl_cons]
      rw [show groupStep dateOf hourOf g p = g from by
        unfold groupStep; rw [if_pos (by omega)]]
      exact ih g

/-- Claim C10: the immediate per-snapshot send path
(`groupActivityByLanguageAndHour`) silently drops every resource whose
accumulated time is below one whole second, whatever its line counters —
the grouping equals the grouping of the snapshot with those entries
filtered out — while the buffer ingest path (`saveActivity`) appends a
record for such a resource whenever its signed net line delta is
nonzero. -/
theorem immediateSend_drops_subsecond_unlike_ingest :
    (∀ (dateOf : Int → Int → String) (hourOf : Int → Int → Int)
       (stats : ActivityStats),
       groupActivityByLanguageAndHour dateOf hourOf stats =
         groupActivityByLanguageAndHour dateOf hourOf
           { stats with
             activeFiles :=
               stats.activeFiles.filter
                 (fun p => decide (0 < timeSpentSeconds p.2)) }) ∧
    (∀ (dateOf : Int → Int → String) (hourOf : Int → Int → Int)
       (activities : List StoredActivity) (stats : ActivityStats)
       (now : Int) (fp : String) (fa : FileActivity),
       stats.activeFiles = [(fp, fa)] →
       timeSpentSeconds fa ≤ 0 →
       fa.linesAdded ≠ fa.linesDeleted →
       groupActivityByLanguageAndHour dateOf hourOf stats = [] ∧
       saveActivity dateOf hourOf activities stats now =
         activities ++ [mkStoredRecord dateOf hourOf fa now]) := by
  constructor
  · intro dateOf hourOf stats
    exact groupFold_skips_subsecond dateOf hourOf stats.activeFiles []
  · intro dateOf hourOf activities stats now fp fa hfiles htss hne
    constructor
    · unfold groupActivityByLanguageAndHour
      rw [hfiles]
      simp only [List.foldl_cons, List.foldl_nil]
      unfold groupStep
      dsimp only
      rw [if_pos htss]
    · unfold saveActivity
      rw [hfiles]
      simp only [List.filterMap_cons, List.filterMap_nil]
      rw [if_neg (by omega), if_pos (by omega)]

/-- Setting a key makes it readable. -/
lemma mapGet_mapSet_self {α β : Type} [DecidableEq α] (k : α) (v : β) :
    ∀ m : List (α × β), mapGet (mapSet m k v) k = some v := by
  intro m
  induction m with
  | nil => simp [mapSet, mapGet]
  | cons q rest ih =>
    obtain ⟨q1, q2⟩ := q
    by_cases h : q1 = k
    · simp [mapSet, mapGet, h]
    · simp [mapSet, mapGet, h, ih]

/-- Setting a key leaves every other key unchanged. -/
lemma mapGet_mapSet_ne {α β : Type} [DecidableEq α] (k k2 : α) (v : β)
    (hne : k2 ≠ k) :
    ∀ m : List (α × β), mapGet (mapSet m k v) k2 = mapGet m k2 := by
  intro m
  induction m with
  | nil => simp [mapSet, mapGet, Ne.symm hne]
  | cons q rest ih =>
    obtain ⟨q1, q2⟩ := q
    by_cases h : q1 = k
    · subst h
      simp [mapSet, mapGet, Ne.symm hne]
    · by_cases h2 : q1 = k2
      · subst h2
        simp [mapSet, mapGet, h, hne]
      · simp [mapSet, mapGet, h, h2, ih]

/-- The time-summing fold is a shift-invariant accumulation. -/
lemma sumTime_shift (l : List (String × FileActivity)) :
    ∀ a c : Int,
      l.foldl (fun total p => total + p.2.timeSpent) (a + c) =
        l.foldl (fun total p => total + p.2.timeSpent) a + c := by
  induction l with
  | nil => intro a c; rfl
  | cons p rest ih =>
    intro a c
    simp only [List.foldl_cons]
    rw [show a + c + p.2.timeSpent = a + p.2.timeSpent + c from by ring]
    exact ih _ _

/-- Replacing the value at a present key changes the time sum by the
difference of the stored times. -/
lemma sumTime_mapSet (k : String) (v : FileActivity) :
    ∀ (m : List (String × FileActivity)) (fa : FileActivity) (init : Int),
      mapGet m k = some fa →
      (mapSet m k v).foldl (fun total p => total + p.2.timeSpent) init =
        m.foldl (fun total p => total + p.2.timeSpent) init +
          (v.timeSpent - fa.timeSpent) := by
  intro m
  induction m with
  | nil => intro fa init h; cases h
  | cons q rest ih =>
    obtain ⟨q1, q2⟩ := q
    intro fa init h
    simp only [mapGet] at h
    by_cases hq : q1 = k
    · rw [if_pos hq] at h
      cases h
      simp only [mapSet, if_pos hq, List.foldl_cons]
      rw [show init + v.timeSpent =
          init + q2.timeSpent + (v.timeSpent - q2.timeSpent) from by ring]
      exact sumTime_shift rest _ _
    · rw [if_neg hq] at h
      simp only [mapSet, if_neg hq, List.foldl_cons]
      exact ih fa _ h

/-- Complete case analysis of one tick: the tick always advances
`lastTickTime` to `now`, and either contributes nothing to the ledger and
the interval counter, or (when a focused file has a ledger entry and the
interval cap admits it) adds `min (now − lastTickTime) MAX_TIME_PER_TICK`
to that one file and to the interval counter. -/
lemma tickTime_spec (s : TrackerState) (focused : Bool) (now : Int) :
    (tickTime s focused now).lastTickTime = now ∧
    (((tickTime s focused now).activeFiles = s.activeFiles ∧
      (tickTime s focused now).intervalTimeAccumulated =
        s.intervalTimeAccumulated) ∨
     ∃ fp fa,
       s.currentActiveFile = some fp ∧
       mapGet s.activeFiles fp = some fa ∧
       s.intervalTimeAccumulated +
           min (now - s.lastTickTime) MAX_TIME_PER_TICK ≤
         MAX_TIME_PER_SAVE_INTERVAL ∧
       (tickTime s focused now).activeFiles =
         mapSet s.activeFiles fp
           { fa with
             timeSpent := fa.timeSpent +
               min (now - s.lastTickTime) MAX_TIME_PER_TICK
             lastActive := now } ∧
       (tickTime s focused now).intervalTimeAccumulated =
         s.intervalTimeAccumulated +
           min (now - s.lastTickTime) MAX_TIME_PER_TICK) := by
  cases focused with
  | false =>
    refine ⟨?_, Or.inl ⟨?_, ?_⟩⟩ <;> simp [tickTime]
  | true =>
    cases hcur : s.currentActiveFile with
    | none =>
      refine ⟨?_, Or.inl ⟨?_, ?_⟩⟩ <;> simp [tickTime, hcur]
    | some fp =>
      by_cases hidle : now - s.lastActivityTime > INACTIVITY_THRESHOLD
      · refine ⟨?_, Or.inl ⟨?_, ?_⟩⟩ <;> simp [tickTime, hcur, hidle]
      · cases hget : mapGet s.activeFiles fp with
        | none =>
          refine ⟨?_, Or.inl ⟨?_, ?_⟩⟩ <;> simp [tickTime, hcur, hidle, hget]
        | some fa =>
          by_cases hcap : s.intervalTimeAccumulated +
              min (now - s.lastTickTime) MAX_TIME_PER_TICK >
                MAX_TIME_PER_SAVE_INTERVAL
          · refine ⟨?_, Or.inl ⟨?_, ?_⟩⟩ <;>
              simp [tickTime, hcur, hidle, hget, hcap]
          · refine ⟨?_,
              Or.inr ⟨fp, fa, rfl, hget, le_of_not_lt hcap, ?_, ?_⟩⟩ <;>
              simp [tickTime, hcur, hidle, hget, hcap]

/-- A tick always advances the tick clock to the observed `now`. -/
lemma tickTime_lastTickTime (s : TrackerState) (focused : Bool) (now : Int) :
    (tickTime s focused now).lastTickTime = now :=
  (tickTime_spec s focused now).1

/-- One tick adds at most `MAX_TIME_PER_TICK` to any resource. -/
lemma tickTime_fileTime_le (s : TrackerState) (focused : Bool) (now : Int)
    (fp : String) :
    fileTime (tickTime s focused now) fp ≤ fileTime s fp + MAX_TIME_PER_TICK := by
  have hM : (0 : Int) ≤ MAX_TIME_PER_TICK := by decide
  rcases (tickTime_spec s focused now).2 with ⟨hA, _⟩ |
      ⟨fp0, fa, _, hget, _, hA, _⟩
  · have heq : fileTime (tickTime s focused now) fp = fileTime s fp := by
      unfold fileTime; rw [hA]
    rw [heq]; omega
  · by_cases hfp : fp = fp0
    · subst hfp
      unfold fileTime
      rw [hA, mapGet_mapSet_self, hget]
      dsimp only
      have := min_le_right (now - s.lastTickTime) MAX_TIME_PER_TICK
      linarith
    · unfold fileTime
      rw [hA, mapGet_mapSet_ne _ _ _ hfp]
      omega

/-- Under a forward-moving clock, one tick never decreases any resource
time. -/
lemma tickTime_fileTime_mono (s : TrackerState) (focused : Bool) (now : Int)
    (fp : String) (h : s.lastTickTime ≤ now) :
    fileTime s fp ≤ fileTime (tickTime s focused now) fp := by
  rcases (tickTime_spec s focused now).2 with ⟨hA, _⟩ |
      ⟨fp0, fa, _, hget, _, hA, _⟩
  · have heq : fileTime (tickTime s focused now) fp = fileTime s fp := by
      unfold fileTime; rw [hA]
    rw [heq]
  · by_cases hfp : fp = fp0
    · subst hfp
      unfold fileTime
      rw [hA, mapGet_mapSet_self, hget]
      dsimp only
      have hmin : (0 : Int) ≤ min (now - s.lastTickTime) MAX_TIME_PER_TICK :=
        le_min (by omega) (by decide)
      linarith
    · unfold fileTime
      rw [hA, mapGet_mapSet_ne _ _ _ hfp]

/-- One tick adds at most the observed gap `now − lastTickTime` to the
total session time. -/
lemma tickTime_session_le (s : TrackerState) (focused : Bool) (now : Int)
    (h : s.lastTickTime ≤ now) :
    getSessionTime (tickTime s focused now) ≤
      getSessionTime s + (now - s.lastTickTime) := by
  rcases (tickTime_spec s focused now).2 with ⟨hA, _⟩ |
      ⟨fp0, fa, _, hget, _, hA, _⟩
  · have heq : getSessionTime (tickTime s focused now) = getSessionTime s := by
      unfold getSessionTime; rw [hA]
    rw [heq]; omega
  · unfold getSessionTime
    rw [hA, sumTime_mapSet fp0 _ s.activeFiles fa 0 hget]
    dsimp only
    have := min_le_left (now - s.lastTickTime) MAX_TIME_PER_TICK
    linarith

/-- One tick keeps the interval counter within the cap. -/
lemma tickTime_interval_le (s : TrackerState) (focused : Bool) (now : Int)
    (h : s.intervalTimeAccumulated ≤ MAX_TIME_PER_SAVE_INTERVAL) :
    (tickTime s focused now).intervalTimeAccumulated ≤
      MAX_TIME_PER_SAVE_INTERVAL := by
  rcases (tickTime_spec s focused now).2 with ⟨_, hI⟩ |
      ⟨fp0, fa, _, _, hcap, _, hI⟩
  · rw [hI]; exact h
  · rw [hI]; exact hcap

/-- A tick whose addition would pass the interval cap contributes nothing:
neither the ledger nor the interval counter changes. -/
lemma tickTime_capped (s : TrackerState) (focused : Bool) (now : Int)
    (h : MAX_TIME_PER_SAVE_INTERVAL <
        s.intervalTimeAccumulated +
          min (now - s.lastTickTime) MAX_TIME_PER_TICK) :
    (tickTime s focused now).activeFiles = s.activeFiles ∧
    (tickTime s focused now).intervalTimeAccumulated =
      s.intervalTimeAccumulated := by
  rcases (tickTime_spec s focused now).2 with ⟨hA, hI⟩ |
      ⟨fp0, fa, _, _, hcap, _, _⟩
  · exact ⟨hA, hI⟩
  · exact absurd hcap (not_le.mpr h)

/-- Resource time is non-decreasing along a monotone tick sequence. -/
lemma ticks_fileTime_mono :
    ∀ (l : List (Bool × Int)) (s : TrackerState) (fp : String),
      ticksMono s.lastTickTime l → fileTime s fp ≤ fileTime (ticks s l) fp := by
  intro l
  induction l with
  | nil => intro s fp _; exact le_refl _
  | cons p rest ih =>
    intro s fp h
    obtain ⟨p1, p2⟩ := p
    simp only [ticksMono] at h
    obtain ⟨h1, h2⟩ := h
    have step : fileTime s fp ≤ fileTime (tickTime s p1 p2) fp :=
      tickTime_fileTime_mono s p1 p2 fp h1
    have tail : fileTime (tickTime s p1 p2) fp ≤
        fileTime (ticks (tickTime s p1 p2) rest) fp :=
      ih (tickTime s p1 p2) fp (by rw [tickTime_lastTickTime]; exact h2)
    exact le_trans step tail

/-- Total session time grows by at most the sum of inter-tick gaps along a
monotone tick sequence. -/
lemma ticks_session_le :
    ∀ (l : List (Bool × Int)) (s : TrackerState),
      ticksMono s.lastTickTime l →
      getSessionTime (ticks s l) ≤ getSessionTime s + gapsSum s.lastTickTime l := by
  intro l
  induction l with
  | nil => intro s _; simp [ticks, gapsSum]
  | cons p rest ih =>
    intro s h
    obtain ⟨p1, p2⟩ := p
    simp only [ticksMono] at h
    obtain ⟨h1, h2⟩ := h
    have tail : getSessionTime (ticks (tickTime s p1 p2) rest) ≤
        getSessionTime (tickTime s p1 p2) +
          gapsSum (tickTime s p1 p2).lastTickTime rest :=
      ih (tickTime s p1 p2) (by rw [tickTime_lastTickTime]; exact h2)
    rw [tickTime_lastTickTime] at tail
    have step := tickTime_session_le s p1 p2 h1
    have : getSessionTime (ticks s ((p1, p2) :: rest)) =
        getSessionTime (ticks (tickTime s p1 p2) rest) := rfl
    rw [this]
    simp only [gapsSum]
    linarith

/-- The interval counter stays within the cap along any tick sequence. -/
lemma ticks_interval_le :
    ∀ (l : List (Bool × Int)) (s : TrackerState),
      s.intervalTimeAccumulated ≤ MAX_TIME_PER_SAVE_INTERVAL →
      (ticks s l).intervalTimeAccumulated ≤ MAX_TIME_PER_SAVE_INTERVAL := by
  intro l
  induction l with
  | nil => intro s h; exact h
  | cons p rest ih =>
    intro s h
    obtain ⟨p1, p2⟩ := p
    exact ih (tickTime s p1 p2) (tickTime_interval_le s p1 p2 h)

/-- Monotonicity of a tick trace transfers to the suffix after running a
prefix. -/
lemma ticksMono_append :
    ∀ (l1 : List (Bool × Int)) (s : TrackerState) (l2 : List (Bool × Int)),
      ticksMono s.lastTickTime (l1 ++ l2) →
      ticksMono (ticks s l1).lastTickTime l2 := by
  intro l1
  induction l1 with
  | nil => intro s l2 h; exact h
  | cons p rest ih =>
    intro s l2 h
    obtain ⟨p1, p2⟩ := p
    simp only [List.cons_append, ticksMono] at h
    exact ih (tickTime s p1 p2) l2
      (by rw [tickTime_lastTickTime]; exact h.2)

/-- Claim C4: along a tick sequence with no intervening reset whose clock
readings are non-decreasing, every resource's accumulated time is
monotonically non-decreasing (every prefix of the trace yields at most the
full trace's value), a single tick adds at most `MAX_TIME_PER_TICK`
(2000 ms) to a resource, and the total accumulated time grows by at most
the sum of inter-tick gaps (the wall-clock time elapsed over the
sequence). -/
theorem tick_caps_and_monotonicity (s : TrackerState) (l : List (Bool × Int))
    (hmono : ticksMono s.lastTickTime l) :
    (∀ (l1 l2 : List (Bool × Int)), l = l1 ++ l2 → ∀ fp : String,
        fileTime (ticks s l1) fp ≤ fileTime (ticks s l) fp) ∧
    (∀ (s2 : TrackerState) (focused : Bool) (now : Int) (fp : String),
        fileTime (tickTime s2 focused now) fp ≤
          fileTime s2 fp + MAX_TIME_PER_TICK) ∧
    getSessionTime (ticks s l) ≤
      getSessionTime s + gapsSum s.lastTickTime l := by
  refine ⟨?_, fun s2 f n fp => tickTime_fileTime_le s2 f n fp,
    ticks_session_le l s hmono⟩
  intro l1 l2 hsplit fp
  subst hsplit
  rw [show ticks s (l1 ++ l2) = ticks (ticks s l1) l2 from by
    unfold ticks; rw [List.foldl_append]]
  exact ticks_fileTime_mono l2 (ticks s l1) fp (ticksMono_append l1 s l2 hmono)

/-- Claim C4 witness: the theorem applied to the concrete trace. -/
theorem tick_caps_and_monotonicity_witness :
    getSessionTime (ticks exTracker exTicks) ≤
      getSessionTime exTracker + gapsSum exTracker.lastTickTime exTicks :=
  (tick_caps_and_monotonicity exTracker exTicks
    (by norm_num [ticksMono, exTracker, exTicks])).2.2

/-- Claim C5: starting from any state whose interval counter is within the
cap (in particular a freshly reset one, where it is 0), the per-flush
interval counter never exceeds `MAX_TIME_PER_SAVE_INTERVAL` (35000 ms)
over any tick sequence; and a tick whose addition would push the counter
past the cap contributes nothing — neither the ledger (so no resource
time) nor the counter changes. -/
theorem interval_cap_invariant (s : TrackerState) (l : List (Bool × Int))
    (h : s.intervalTimeAccumulated ≤ MAX_TIME_PER_SAVE_INTERVAL) :
    (ticks s l).intervalTimeAccumulated ≤ MAX_TIME_PER_SAVE_INTERVAL ∧
    (∀ (s2 : TrackerState) (focused : Bool) (now : Int),
        MAX_TIME_PER_SAVE_INTERVAL <
            s2.intervalTimeAccumulated +
              min (now - s2.lastTickTime) MAX_TIME_PER_TICK →
        (tickTime s2 focused now).activeFiles = s2.activeFiles ∧
        (tickTime s2 focused now).intervalTimeAccumulated =
          s2.intervalTimeAccumulated) :=
  ⟨ticks_interval_le l s h, fun s2 focused now hcap =>
    tickTime_capped s2 focused now hcap⟩

/-- Claim C5 witness: the theorem applied to the concrete trace. -/
theorem interval_cap_invariant_witness :
    (ticks exTracker exTicks).intervalTimeAccumulated ≤
      MAX_TIME_PER_SAVE_INTERVAL :=
  (interval_cap_invariant exTracker exTicks (by decide)).1

/-- Claim C9 (amended): `getStats` does not mutate the tracker (it is a
pure function of the state in this embedding, returning only the
snapshot), and two snapshots of the same state agree on every field except
the snapshot timestamp `sessionEnd`, which equals the clock reading of
each call; the snapshots are fully equal exactly when the two clock
readings coincide.  Two consecutive calls at different clock readings
therefore differ, against the original claim. -/
theorem getStats_pure_snapshot :
    ∀ (s : TrackerState) (n1 n2 : Int),
      (getStats s n1).sessionStart = (getStats s n2).sessionStart ∧
      (getStats s n1).activeFiles = (getStats s n2).activeFiles ∧
      (getStats s n1).totalKeystrokes = (getStats s n2).totalKeystrokes ∧
      (getStats s n1).totalTimeSpent = (getStats s n2).totalTimeSpent ∧
      (getStats s n1).sessionEnd = n1 ∧
      (getStats s n1 = getStats s n2 ↔ n1 = n2) := by
  intro s n1 n2
  refine ⟨rfl, rfl, rfl, rfl, rfl, ?_, ?_⟩
  · intro h
    exact congrArg ActivityStats.sessionEnd h
  · intro h
    rw [h]

/-- Claim C9 counterexample: two snapshot calls with no intervening
mutation, one clock millisecond apart, return different snapshots. -/
theorem getStats_consecutive_differ :
    getStats exTracker 0 ≠ getStats exTracker 1 := by
  decide

/-- Claim C6: the per-range computation of `trackFileChange` is exactly the
specified arithmetic — deleted = `max(0, endLine − startLine)`, added =
line-break count, overlap `min(added, deleted)` subtracted from each when
both nonzero, keystrokes = `max(inserted length, replaced length)` — and
on the concrete example startLine 0, endLine 1, two line breaks inserted,
the result is (linesDeleted, linesAdded) = (0, 1). -/
theorem trackFileChange_range_arithmetic :
    (∀ c : ContentChange, changeDelta c = specRangeDelta c) ∧
    changeDelta
        { startLine := 0, endLine := 1, text := ['x', '\n', 'y', '\n']
          rangeLength := 0 } =
      (0, 1, 4) := by
  constructor
  · intro c
    unfold changeDelta specRangeDelta
    dsimp only
    have hnl : (0 : Int) ≤ (c.text.count '\n' : Int) := by positivity
    have hd : ((c.endLine : Int) - (c.startLine : Int)) ≤
        max 0 ((c.endLine : Int) - (c.startLine : Int)) := le_max_right _ _
    refine congrArg₂ Prod.mk ?_ (congrArg₂ Prod.mk ?_ rfl)
    · split_ifs <;> rcases max_cases (0 : Int)
          ((c.endLine : Int) - (c.startLine : Int)) with ⟨h1, h2⟩ | ⟨h1, h2⟩ <;>
        rcases min_cases ((c.endLine : Int) - (c.startLine : Int))
          ((c.text.count '\n' : Int)) with ⟨h3, h4⟩ | ⟨h3, h4⟩ <;>
        rcases min_cases ((c.text.count '\n' : Int))
          (max 0 ((c.endLine : Int) - (c.startLine : Int))) with
            ⟨h5, h6⟩ | ⟨h5, h6⟩ <;>
        omega
    · split_ifs <;> rcases max_cases (0 : Int)
          ((c.endLine : Int) - (c.startLine : Int)) with ⟨h1, h2⟩ | ⟨h1, h2⟩ <;>
        rcases min_cases ((c.endLine : Int) - (c.startLine : Int))
          ((c.text.count '\n' : Int)) with ⟨h3, h4⟩ | ⟨h3, h4⟩ <;>
        rcases min_cases ((c.text.count '\n' : Int))
          (max 0 ((c.endLine : Int) - (c.startLine : Int))) with
            ⟨h5, h6⟩ | ⟨h5, h6⟩ <;>
        omega
  · decide

/-- Claim C8, evaluated at the failing input (one unsynced record, HTTP 500
response): the batch records indeed all remain unsynced — that half of the
claim holds, in the forced and the scheduled path alike — but the forced
sync reports success: the notification shown is the success message, not
an error, because the promise of the progress task is never awaited and
the catch block cannot observe the rejection. -/
theorem forceSync_failure_reports_success :
    (syncActivities "tok" (getUnsyncedActivities [recUnsynced])
        { ok := false, status := 500, body := "" }).isOk = false ∧
    runForceSyncAfterFlush [recUnsynced]
        (syncActivities "tok" (getUnsyncedActivities [recUnsynced])
          { ok := false, status := 500, body := "" }) =
      ([recUnsynced], ["✅ Synchronized 1 records"]) ∧
    runScheduledSync [recUnsynced]
        (syncActivities "tok" (getUnsyncedActivities [recUnsynced])
          { ok := false, status := 500, body := "" }) = [recUnsynced] ∧
    recUnsynced.synced = false := by
  exact ⟨by decide, by decide, by decide, by decide⟩
